import Mathlib

/-!
Verification development for the qubicly client library (qubic.py, types.py).

The wire model: a TCP connection is a byte stream, embedded as a `List Nat`
whose elements are byte values (< 256).  `must_recv` mirrors the source's
`must_recv(conn, size)`: it yields exactly `size` bytes or fails (the Python
code raises `ValueError` when the connection closes early; failure is `none`).
Loops whose Python form is `while True:` consume at least 8 bytes per
iteration, so they are embedded with an explicit fuel argument; the top-level
entry points pass `stream.length + 1`, which is always sufficient, and
fuel-irrelevance lemmas below show the choice of (sufficient) fuel is
immaterial.
-/

deriving instance DecidableEq for Except

/-- A byte stream (the bytes readable from the connection). -/
abbrev ByteStream : Type := List Nat

/-- Read exactly `n` bytes from the stream, as in the source's `must_recv`:
returns the bytes and the remaining stream, or fails when the stream is
exhausted first. -/
def must_recv (s : ByteStream) (n : Nat) : Option (List Nat × ByteStream) :=
  if n ≤ s.length then some (s.take n, s.drop n) else none

/-- Little-endian value of a byte list (struct format characters Q, I, H, B). -/
def leNat : List Nat → Nat
  | [] => 0
  | b :: bs => b + 256 * leNat bs

/-- Little-endian encoding of `n` on `k` bytes (struct.pack with formats
Q, I, H, B; the pack calls in the source require `n` to fit in `k` bytes,
which our theorems carry as hypotheses). -/
def natToLe (n : Nat) : Nat → List Nat
  | 0 => []
  | k + 1 => (n % 256) :: natToLe (n / 256) k

/-- Big-endian value of a byte list (struct format in the source: the
header decode path unpacks the correlation id with the big-endian format). -/
def beNat (l : List Nat) : Nat :=
  l.foldl (fun a b => a * 256 + b) 0

/-- Signed 8-bit value of a byte (struct format b). -/
def sInt8 (b : Nat) : Int :=
  if b < 128 then (b : Int) else (b : Int) - 256

/-- Signed 64-bit little-endian value of 8 bytes (struct format q). -/
def sIntOfLe (l : List Nat) : Int :=
  let n := leNat l
  if n < 2 ^ 63 then (n : Int) else (n : Int) - 2 ^ 64

/-- Two's-complement little-endian bytes of a signed value (struct.pack q). -/
def sIntToLe (v : Int) (k : Nat) : List Nat :=
  natToLe (v.emod (2 ^ (8 * k))).toNat k

/-- Split a list into `k` chunks of `n` bytes each (the source's
`for i in range(0, total, 32)` slicing loops over a buffer of `k * n` bytes). -/
def chunksOf (k n : Nat) (l : List Nat) : List (List Nat) :=
  match k with
  | 0 => []
  | k + 1 => l.take n :: chunksOf k n (l.drop n)

/-! Protocol constants (types.py module level). -/

def EXCHANGE_PUBLIC_PEERS : Nat := 0

def BROADCAST_COMPUTORS : Nat := 2

def QUORUM_TICK_RESPONSE : Nat := 3

def QUORUM_TICK_REQUEST : Nat := 14

def BROADCAST_FUTURE_TICK_DATA : Nat := 8

def TICK_DATA_REQUEST : Nat := 16

def CURRENT_TICK_INFO_REQUEST : Nat := 27

def CURRENT_TICK_INFO_RESPONSE : Nat := 28

def END_RESPONSE : Nat := 35

def ISSUED_ASSETS_REQUEST : Nat := 36

def ISSUED_ASSETS_RESPONSE : Nat := 37

def BROADCAST_TRANSACTION : Nat := 24

def REQUEST_ASSETS : Nat := 52

def RESPOND_ASSETS : Nat := 53

def ASSET_ISSUANCE_RECORDS : Nat := 0

def ASSET_OWNERSHIP_RECORDS : Nat := 1

def ASSET_POSSESSION_RECORDS : Nat := 2

def ASSET_BY_UNIVERSE_INDEX : Nat := 3

def FLAG_ANY_ISSUER : Nat := 0b10

def FLAG_ANY_ASSET_NAME : Nat := 0b100

def FLAG_ANY_OWNER : Nat := 0b1000

def FLAG_ANY_OWNER_CONTRACT : Nat := 0b10000

def FLAG_ANY_POSSESSOR : Nat := 0b100000

def FLAG_ANY_POSSESSOR_CONTRACT : Nat := 0b1000000

def NUMBER_OF_TRANSACTIONS_PER_TICK : Nat := 1024

def ASSETS_DEPTH : Nat := 24

/-! The frame header (types.py, class RequestResponseHeader). -/

structure RequestResponseHeader where
  size : List Nat
  type : Nat
  deja_vu : Nat
deriving DecidableEq

/-- types.py, RequestResponseHeader.get_size. -/
def RequestResponseHeader.get_size (h : RequestResponseHeader) : Nat :=
  ((h.size.getD 0 0) ||| ((h.size.getD 1 0) <<< 8) ||| ((h.size.getD 2 0) <<< 16)) &&& 0xFFFFFF

/-- types.py, RequestResponseHeader.set_size. -/
def RequestResponseHeader.set_size (h : RequestResponseHeader) (n : Nat) : RequestResponseHeader :=
  { h with size := [n &&& 0xFF, (n >>> 8) &&& 0xFF, (n >>> 16) &&& 0xFF] }

/-- types.py, RequestResponseHeader.encode: three size bytes, one type byte,
four little-endian correlation-id bytes. -/
def RequestResponseHeader.encode (h : RequestResponseHeader) : List Nat :=
  h.size ++ [h.type &&& 0xFF] ++ natToLe h.deja_vu 4

/-- The header value built from 8 raw header bytes: the first three bytes are
the size, byte 3 the type, bytes 4..7 the big-endian correlation id (this is
the decode path of types.py, RequestResponseHeader.decode). -/
def headerOf (hd : List Nat) : RequestResponseHeader :=
  { size := hd.take 3, type := hd.getD 3 0, deja_vu := beNat ((hd.drop 4).take 4) }

/-- The `while True` loop of types.py, RequestResponseHeader.decode, with
explicit fuel.  Read 8 header bytes; stop on the terminator type; on a type
mismatch (or type 0) discard `get_size - 8` payload bytes and retry; otherwise
return the header.  (When `get_size ≤ 8` the Python guard `ignore_size > 0`
skips the read, which coincides with reading 0 bytes.) -/
def RequestResponseHeader.decodeLoop (expected : Nat) : Nat → ByteStream → Option (RequestResponseHeader × ByteStream)
  | 0, _ => none
  | fuel + 1, s =>
    match must_recv s 8 with
    | none => none
    | some (hd, rest) =>
      let hdr := headerOf hd
      if hdr.type = END_RESPONSE then some (hdr, rest)
      else if hdr.type = 0 ∨ hdr.type ≠ expected then
        match must_recv rest (hdr.get_size - 8) with
        | none => none
        | some (_, rest2) => RequestResponseHeader.decodeLoop expected fuel rest2
      else some (hdr, rest)

/-- types.py, RequestResponseHeader.decode (entry point; the fuel
`s.length + 1` always suffices since every iteration consumes 8 bytes). -/
def RequestResponseHeader.decode (expected : Nat) (s : ByteStream) : Option (RequestResponseHeader × ByteStream) :=
  RequestResponseHeader.decodeLoop expected (s.length + 1) s

/-! Record structures and codecs (types.py). -/

/-- types.py, class IssuedAssetData (fields as decoded by the struct format
B7sb7s after the 32-byte public key). -/
structure IssuedAssetData where
  public_key : List Nat
  type : Nat
  name : List Nat
  number_of_decimal_places : Int
  unit_of_measurement : List Nat
deriving DecidableEq

/-- Pure unpacking of the 48-byte IssuedAssetData block. -/
def IssuedAssetData.parse (d : List Nat) : IssuedAssetData :=
  { public_key := d.take 32
    type := d.getD 32 0
    name := (d.drop 33).take 7
    number_of_decimal_places := sInt8 (d.getD 40 0)
    unit_of_measurement := (d.drop 41).take 7 }

/-- types.py, IssuedAssetData.decode: one 48-byte read then unpack. -/
def IssuedAssetData.decode (s : ByteStream) : Option (IssuedAssetData × ByteStream) :=
  match must_recv s 48 with
  | none => none
  | some (d, rest) => some (IssuedAssetData.parse d, rest)

/-- types.py, class AssetInfo. -/
structure AssetInfo where
  tick : Nat
  universe_index : Nat
  siblings : List (List Nat)
deriving DecidableEq

/-- types.py, AssetInfo.decode: an 8-byte read (tick and universe index,
little-endian 32-bit each), then ASSETS_DEPTH * 32 = 768 sibling bytes split
into 32-byte chunks. -/
def AssetInfo.decode (s : ByteStream) : Option (AssetInfo × ByteStream) :=
  match must_recv s 8 with
  | none => none
  | some (hd, rest) =>
    match must_recv rest (ASSETS_DEPTH * 32) with
    | none => none
    | some (sib, rest2) =>
      some ({ tick := leNat (hd.take 4), universe_index := leNat ((hd.drop 4).take 4),
              siblings := chunksOf ASSETS_DEPTH 32 sib }, rest2)

/-- types.py, class IssuedAsset. -/
structure IssuedAsset where
  data : IssuedAssetData
  info : AssetInfo
deriving DecidableEq

/-- The `while True` loop of types.py, IssuedAssets.decode, with explicit
fuel: read a header expecting ISSUED_ASSETS_RESPONSE, stop at the terminator,
otherwise decode one IssuedAssetData + AssetInfo record and continue. -/
def IssuedAssets.decodeLoop : Nat → ByteStream → Option (List IssuedAsset × ByteStream)
  | 0, _ => none
  | fuel + 1, s =>
    match RequestResponseHeader.decode ISSUED_ASSETS_RESPONSE s with
    | none => none
    | some (hdr, s1) =>
      if hdr.type = END_RESPONSE then some ([], s1)
      else
        match IssuedAssetData.decode s1 with
        | none => none
        | some (d, s2) =>
          match AssetInfo.decode s2 with
          | none => none
          | some (info, s3) =>
            match IssuedAssets.decodeLoop fuel s3 with
            | none => none
            | some (assets, s4) => some (⟨d, info⟩ :: assets, s4)

/-- types.py, IssuedAssets.decode (entry point). -/
def IssuedAssets.decode (s : ByteStream) : Option (List IssuedAsset × ByteStream) :=
  IssuedAssets.decodeLoop (s.length + 1) s

/-- types.py, class QuorumTickVote (fields in wire order). -/
structure QuorumTickVote where
  computor_index : Nat
  epoch : Nat
  tick : Nat
  millisecond : Nat
  second : Nat
  minute : Nat
  hour : Nat
  day : Nat
  month : Nat
  year : Nat
  previous_resource_testing_digest : Nat
  salted_resource_testing_digest : Nat
  previous_transaction_body_digest : Nat
  salted_transaction_body_digest : Nat
  previous_spectrum_digest : List Nat
  previous_universe_digest : List Nat
  previous_computer_digest : List Nat
  salted_spectrum_digest : List Nat
  salted_universe_digest : List Nat
  salted_computer_digest : List Nat
  tx_digest : List Nat
  expected_next_tick_tx_digest : List Nat
  signature : List Nat
deriving DecidableEq

/-- Pure unpacking of the 344-byte QuorumTickVote buffer (types.py,
QuorumTickVote.decode; note the source reads 344 bytes although the declared
fields sum to 352, so the final signature slice holds only 56 bytes). -/
def QuorumTickVote.parse (d : List Nat) : QuorumTickVote :=
  { computor_index := leNat (d.take 2)
    epoch := leNat ((d.drop 2).take 2)
    tick := leNat ((d.drop 4).take 4)
    millisecond := leNat ((d.drop 8).take 2)
    second := d.getD 10 0
    minute := d.getD 11 0
    hour := d.getD 12 0
    day := d.getD 13 0
    month := d.getD 14 0
    year := d.getD 15 0
    previous_resource_testing_digest := leNat ((d.drop 16).take 4)
    salted_resource_testing_digest := leNat ((d.drop 20).take 4)
    previous_transaction_body_digest := leNat ((d.drop 24).take 4)
    salted_transaction_body_digest := leNat ((d.drop 28).take 4)
    previous_spectrum_digest := (d.drop 32).take 32
    previous_universe_digest := (d.drop 64).take 32
    previous_computer_digest := (d.drop 96).take 32
    salted_spectrum_digest := (d.drop 128).take 32
    salted_universe_digest := (d.drop 160).take 32
    salted_computer_digest := (d.drop 192).take 32
    tx_digest := (d.drop 224).take 32
    expected_next_tick_tx_digest := (d.drop 256).take 32
    signature := (d.drop 288).take 64 }

/-- types.py, QuorumTickVote.decode: one 344-byte read then unpack. -/
def QuorumTickVote.decode (s : ByteStream) : Option (QuorumTickVote × ByteStream) :=
  match must_recv s 344 with
  | none => none
  | some (d, rest) => some (QuorumTickVote.parse d, rest)

/-- The `while True` loop of types.py, QuorumVotes.decode, with explicit
fuel: read a header expecting QUORUM_TICK_RESPONSE, stop at the terminator,
otherwise decode one vote and continue. -/
def QuorumVotes.decodeLoop : Nat → ByteStream → Option (List QuorumTickVote × ByteStream)
  | 0, _ => none
  | fuel + 1, s =>
    match RequestResponseHeader.decode QUORUM_TICK_RESPONSE s with
    | none => none
    | some (hdr, s1) =>
      if hdr.type = END_RESPONSE then some ([], s1)
      else
        match QuorumTickVote.decode s1 with
        | none => none
        | some (v, s2) =>
          match QuorumVotes.decodeLoop fuel s2 with
          | none => none
          | some (votes, s3) => some (v :: votes, s3)

/-- types.py, QuorumVotes.decode (entry point). -/
def QuorumVotes.decode (s : ByteStream) : Option (List QuorumTickVote × ByteStream) :=
  QuorumVotes.decodeLoop (s.length + 1) s

/-- The pure record denoted by one 824-byte issued-asset record payload
(48 bytes of IssuedAssetData, 8 bytes of tick and universe index, 768 sibling
bytes), exactly as the streaming decoder slices it. -/
def issuedRecordOfPayload (p : List Nat) : IssuedAsset :=
  { data := IssuedAssetData.parse (p.take 48)
    info := { tick := leNat ((p.drop 48).take 4)
              universe_index := leNat (((p.drop 48).drop 4).take 4)
              siblings := chunksOf ASSETS_DEPTH 32 ((p.drop 48).drop 8) } }

/-! The transaction codec (types.py, class Transaction). -/

structure Transaction where
  source_public_key : List Nat
  destination_public_key : List Nat
  amount : Int
  tick : Nat
  input_type : Nat
  input_size : Nat
  input : List Nat
  signature : List Nat
deriving DecidableEq

/-- types.py, Transaction.encode: both keys, then struct.pack of
amount (signed 64-bit), tick (32-bit), input type (16-bit) and input size
(16-bit), all little-endian, then the input bytes, then the signature. -/
def Transaction.encode (t : Transaction) : List Nat :=
  t.source_public_key ++ t.destination_public_key ++ sIntToLe t.amount 8 ++
    natToLe t.tick 4 ++ natToLe t.input_type 2 ++ natToLe t.input_size 2 ++
    t.input ++ t.signature

/-- types.py, Transaction.decode: an 80-byte fixed read (keys and packed
fields), then input_size input bytes (skipped when input_size is 0, leaving
the empty default), then the 64-byte signature. -/
def Transaction.decode (s : ByteStream) : Option (Transaction × ByteStream) :=
  match must_recv s 80 with
  | none => none
  | some (fixed, rest) =>
    let amount := sIntOfLe ((fixed.drop 64).take 8)
    let tick := leNat ((fixed.drop 72).take 4)
    let input_type := leNat ((fixed.drop 76).take 2)
    let input_size := leNat ((fixed.drop 78).take 2)
    match (if input_size > 0 then must_recv rest input_size else some ([], rest)) with
    | none => none
    | some (input, rest2) =>
      match must_recv rest2 64 with
      | none => none
      | some (sig, rest3) =>
        some ({ source_public_key := fixed.take 32
                destination_public_key := (fixed.drop 32).take 32
                amount := amount, tick := tick
                input_type := input_type, input_size := input_size
                input := input, signature := sig }, rest3)

/-- A transaction value is valid when its fixed-width fields fit the widths
struct.pack requires, the keys and signature have their declared sizes, and
the input length agrees with the input_size field. -/
def Transaction.wf (t : Transaction) : Prop :=
  t.source_public_key.length = 32 ∧ t.destination_public_key.length = 32 ∧
  t.signature.length = 64 ∧ t.input.length = t.input_size ∧
  -2 ^ 63 ≤ t.amount ∧ t.amount < 2 ^ 63 ∧ t.tick < 2 ^ 32 ∧
  t.input_type < 2 ^ 16 ∧ t.input_size < 2 ^ 16 ∧
  (∀ b ∈ t.source_public_key, b < 256) ∧ (∀ b ∈ t.destination_public_key, b < 256) ∧
  (∀ b ∈ t.input, b < 256) ∧ (∀ b ∈ t.signature, b < 256)

/-! The identity codec (types.py, class Identity). -/

/-- The base-26 digit loop of types.py, Identity.from_pub_key: `k` times emit
`n % 26` and divide `n` by 26. -/
def digitsBase26 (n : Nat) : Nat → List Nat
  | 0 => []
  | k + 1 => (n % 26) :: digitsBase26 (n / 26) k

/-- types.py, Identity.from_pub_key: split the key into four 8-byte
little-endian fragments, emit 14 base-26 digit letters per fragment (least
significant first), then 4 letters of the 18-bit-masked checksum.  The
checksum integer is the little-endian value of the first 3 bytes of the hash
of the key; the hash is the collaborator-supplied Hash Primitive (the source
uses a placeholder), so it enters here as the parameter `checksum_int`.
A key shorter than 32 bytes makes struct.unpack fail (none). -/
def Identity.from_pub_key (pub_key : List Nat) (is_lower_case : Bool) (checksum_int : Nat) : Option (List Nat) :=
  if 32 ≤ pub_key.length then
    let letter := if is_lower_case then 97 else 65
    let grp : Nat → List Nat := fun i =>
      (digitsBase26 (leNat ((pub_key.drop (i * 8)).take 8)) 14).map (fun d => d + letter)
    some (grp 0 ++ grp 1 ++ grp 2 ++ grp 3 ++
      (digitsBase26 (checksum_int &&& 0x3FFFF) 4).map (fun d => d + letter))
  else none

/-- types.py, Identity.to_pub_key: validate that every character lies in the
chosen alphabet and the length is 60, then for each of the 4 groups of 14
characters accumulate `val = val * 26 + digit` from index 13 down to 0 and
store `val` as an 8-byte little-endian chunk.  struct.pack_into raises when a
group value does not fit 8 bytes (`val ≥ 2 ^ 64`), modelled as none. -/
def Identity.to_pub_key (identity : List Nat) (is_lower_case : Bool) : Option (List Nat) :=
  let base := if is_lower_case then 97 else 65
  let top := if is_lower_case then 122 else 90
  if ∀ c ∈ identity, base ≤ c ∧ c ≤ top then
    if identity.length = 60 then
      let val := fun i =>
        (List.range 14).foldl (fun v j => v * 26 + (identity.getD (i * 14 + (13 - j)) 0 - base)) 0
      if val 0 < 2 ^ 64 ∧ val 1 < 2 ^ 64 ∧ val 2 < 2 ^ 64 ∧ val 3 < 2 ^ 64 then
        some (natToLe (val 0) 8 ++ natToLe (val 1) 8 ++ natToLe (val 2) 8 ++ natToLe (val 3) 8)
      else none
    else none
  else none

/-! The client layer (qubic.py, class QubicClient).  Identity strings and
asset names enter as their character codes / UTF-8 bytes (`List Nat`); the
Python empty string corresponds to the empty list.  Validation and transport
failures, which the source raises as exceptions, are an explicit error type.
The randomized correlation id enters as a parameter.  Each operation returns
the list of packets sent on the transport alongside its result. -/

inductive QErr where
  | connClosed
  | invalidIdentity
  | assetNameRequired
  | futureTick (requested latest : Nat)
deriving DecidableEq

/-- qubic.py, class AssetInformation. -/
structure AssetInformation where
  identity : List Nat
  name : List Nat
deriving DecidableEq

/-- qubic.py, class AssetHolderInformation. -/
structure AssetHolderInformation where
  identity : List Nat
  contract : Nat
deriving DecidableEq

/-- types.py, class RequestAssetsByFilter. -/
structure RequestAssetsByFilter where
  request_type : Nat
  flags : Nat
  ownership_managing_contract : Nat
  possession_managing_contract : Nat
  issuer : List Nat
  asset_name : List Nat
  owner : List Nat
  possessor : List Nat
deriving DecidableEq

/-- types.py, RequestAssetsByFilter.encode: four little-endian 16-bit fields
then the four fixed byte blocks (112 bytes in total for well-sized fields). -/
def RequestAssetsByFilter.encode (r : RequestAssetsByFilter) : List Nat :=
  natToLe r.request_type 2 ++ natToLe r.flags 2 ++ natToLe r.ownership_managing_contract 2 ++
    natToLe r.possession_managing_contract 2 ++ r.issuer ++ r.asset_name ++ r.owner ++ r.possessor

def zeros32 : List Nat := List.replicate 32 0

/-- qubic.py, QubicClient._get_flags: wildcard bits for absent owner and
possessor identities and zero managing-contract indices. -/
def QubicClient._get_flags (owner_info possessor_info : AssetHolderInformation) : Nat :=
  let flags : Nat := 0
  let flags := if owner_info.identity = [] then flags ||| FLAG_ANY_OWNER else flags
  let flags := if possessor_info.identity = [] then flags ||| FLAG_ANY_POSSESSOR else flags
  let flags := if owner_info.contract = 0 then flags ||| FLAG_ANY_OWNER_CONTRACT else flags
  let flags := if possessor_info.contract = 0 then flags ||| FLAG_ANY_POSSESSOR_CONTRACT else flags
  flags

/-- qubic.py, QubicClient._create_by_filter_request: resolve the present
identities (a failing identity conversion propagates as an error), require
an asset name, pad the name to 8 bytes, and build the filter request with
the owner/possessor wildcard flags. -/
def QubicClient._create_by_filter_request (request_type : Nat) (asset_info : AssetInformation)
    (owner_info possessor_info : AssetHolderInformation) : Except QErr RequestAssetsByFilter :=
  match (if asset_info.identity = [] then Except.ok zeros32
         else match Identity.to_pub_key asset_info.identity false with
           | none => Except.error QErr.invalidIdentity
           | some pk => Except.ok pk) with
  | Except.error e => Except.error e
  | Except.ok issuer =>
    if asset_info.name = [] then Except.error QErr.assetNameRequired
    else
      let name := asset_info.name.take 8 ++ List.replicate (8 - (asset_info.name.take 8).length) 0
      match (if owner_info.identity = [] then Except.ok zeros32
             else match Identity.to_pub_key owner_info.identity false with
               | none => Except.error QErr.invalidIdentity
               | some pk => Except.ok pk) with
      | Except.error e => Except.error e
      | Except.ok owner =>
        match (if possessor_info.identity = [] then Except.ok zeros32
               else match Identity.to_pub_key possessor_info.identity false with
                 | none => Except.error QErr.invalidIdentity
                 | some pk => Except.ok pk) with
        | Except.error e => Except.error e
        | Except.ok possessor =>
          Except.ok { request_type := request_type
                      flags := QubicClient._get_flags owner_info possessor_info
                      ownership_managing_contract := owner_info.contract
                      possession_managing_contract := possessor_info.contract
                      issuer := issuer, asset_name := name, owner := owner, possessor := possessor }

/-- qubic.py, QubicClient._create_get_asset_ownerships_by_filter_request. -/
def QubicClient._create_get_asset_ownerships_by_filter_request (asset_info : AssetInformation)
    (owner_info : AssetHolderInformation) : Except QErr RequestAssetsByFilter :=
  QubicClient._create_by_filter_request ASSET_OWNERSHIP_RECORDS asset_info owner_info ⟨[], 0⟩

/-- qubic.py, QubicClient._create_get_asset_possessions_by_filter_request. -/
def QubicClient._create_get_asset_possessions_by_filter_request (asset_info : AssetInformation)
    (owner_info possessor_info : AssetHolderInformation) : Except QErr RequestAssetsByFilter :=
  QubicClient._create_by_filter_request ASSET_POSSESSION_RECORDS asset_info owner_info possessor_info

/-- qubic.py, QubicClient._create_asset_issuances_by_filter_request: the
issuer and asset-name wildcard flags; an empty name is allowed and flagged,
not rejected. -/
def QubicClient._create_asset_issuances_by_filter_request (issuer_identity asset_name : List Nat) :
    Except QErr RequestAssetsByFilter :=
  let flags0 : Nat := if issuer_identity = [] then 0 ||| FLAG_ANY_ISSUER else 0
  match (if issuer_identity = [] then Except.ok zeros32
         else match Identity.to_pub_key issuer_identity false with
           | none => Except.error QErr.invalidIdentity
           | some pk => Except.ok pk) with
  | Except.error e => Except.error e
  | Except.ok issuer =>
    let name := asset_name.take 8 ++ List.replicate (8 - (asset_name.take 8).length) 0
    let flags := if asset_name = [] then flags0 ||| FLAG_ANY_ASSET_NAME else flags0
    Except.ok { request_type := ASSET_ISSUANCE_RECORDS, flags := flags
                ownership_managing_contract := 0, possession_managing_contract := 0
                issuer := issuer, asset_name := name, owner := zeros32, possessor := zeros32 }

/-- types.py, class TickInfo (current tick info response). -/
structure TickInfo where
  tick_duration : Nat
  epoch : Nat
  tick : Nat
  number_of_aligned_votes : Nat
  number_of_misaligned_votes : Nat
  initial_tick : Nat
deriving DecidableEq

/-- The zero value TickInfo.__init__ leaves when the response is a lone
terminator frame. -/
def TickInfo.init : TickInfo := ⟨0, 0, 0, 0, 0, 0⟩

/-- types.py, TickInfo.decode: one filtered header read; the terminator
leaves the zero value; otherwise one 16-byte payload is unpacked. -/
def TickInfo.decode (s : ByteStream) : Option (TickInfo × ByteStream) :=
  match RequestResponseHeader.decode CURRENT_TICK_INFO_RESPONSE s with
  | none => none
  | some (hdr, s1) =>
    if hdr.type = END_RESPONSE then some (TickInfo.init, s1)
    else match must_recv s1 16 with
      | none => none
      | some (p, s2) =>
        some ({ tick_duration := leNat (p.take 2), epoch := leNat ((p.drop 2).take 2),
                tick := leNat ((p.drop 4).take 4),
                number_of_aligned_votes := leNat ((p.drop 8).take 2),
                number_of_misaligned_votes := leNat ((p.drop 10).take 2),
                initial_tick := leNat ((p.drop 12).take 4) }, s2)

/-- types.py, class TickData. -/
structure TickData where
  computor_index : Nat
  epoch : Nat
  tick : Nat
  millisecond : Nat
  second : Nat
  minute : Nat
  hour : Nat
  day : Nat
  month : Nat
  year : Nat
  timelock : List Nat
  transaction_digests : List (List Nat)
  contract_fees : List Int
  signature : List Nat
deriving DecidableEq

/-- The value TickData.__init__ leaves when the response is a terminator. -/
def TickData.init : TickData :=
  ⟨0, 0, 0, 0, 0, 0, 0, 0, 0, 0, List.replicate 32 0, [], [], List.replicate 64 0⟩

/-- types.py, TickData.decode: filtered header, then 16 fixed bytes, the
32-byte timelock, 1024 32-byte digests, 1024 signed 64-bit fees and the
64-byte signature. -/
def TickData.decode (s : ByteStream) : Option (TickData × ByteStream) :=
  match RequestResponseHeader.decode BROADCAST_FUTURE_TICK_DATA s with
  | none => none
  | some (hdr, s1) =>
    if hdr.type = END_RESPONSE then some (TickData.init, s1)
    else match must_recv s1 16 with
      | none => none
      | some (fx, s2) =>
        match must_recv s2 32 with
        | none => none
        | some (tl, s3) =>
          match must_recv s3 (NUMBER_OF_TRANSACTIONS_PER_TICK * 32) with
          | none => none
          | some (dg, s4) =>
            match must_recv s4 (NUMBER_OF_TRANSACTIONS_PER_TICK * 8) with
            | none => none
            | some (fees, s5) =>
              match must_recv s5 64 with
              | none => none
              | some (sg, s6) =>
                some ({ computor_index := leNat (fx.take 2), epoch := leNat ((fx.drop 2).take 2),
                        tick := leNat ((fx.drop 4).take 4), millisecond := leNat ((fx.drop 8).take 2),
                        second := fx.getD 10 0, minute := fx.getD 11 0, hour := fx.getD 12 0,
                        day := fx.getD 13 0, month := fx.getD 14 0, year := fx.getD 15 0,
                        timelock := tl,
                        transaction_digests := chunksOf NUMBER_OF_TRANSACTIONS_PER_TICK 32 dg,
                        contract_fees := (chunksOf NUMBER_OF_TRANSACTIONS_PER_TICK 8 fees).map sIntOfLe,
                        signature := sg }, s6)

/-- types.py, TickRequest.encode: the tick as a little-endian 32-bit value. -/
def TickRequest.encode (tick : Nat) : List Nat := natToLe tick 4

/-- qubic.py, QubicClient._serialize_request: an 8-byte header (size set to
8 plus the payload length; the correlation id is zero for broadcast
transactions and the randomized value `dv` otherwise) followed by the
serialized request data. -/
def QubicClient._serialize_request (request_type : Nat) (request_data : List Nat) (dv : Nat) : List Nat :=
  let header0 : RequestResponseHeader := { size := [0, 0, 0], type := 0, deja_vu := 0 }
  let header1 := header0.set_size (8 + request_data.length)
  let header2 : RequestResponseHeader :=
    if request_type = BROADCAST_TRANSACTION then { header1 with deja_vu := 0, type := request_type }
    else { header1 with deja_vu := dv, type := request_type }
  header2.encode ++ request_data

/-- qubic.py, QubicClient.get_tick_info: send the current-tick-info request,
then decode a TickInfo from the stream.  Returns the packets sent and the
result. -/
def QubicClient.get_tick_info (dv : Nat) (s : ByteStream) :
    List (List Nat) × Except QErr (TickInfo × ByteStream) :=
  let pkt := QubicClient._serialize_request CURRENT_TICK_INFO_REQUEST [] dv
  ([pkt],
    match TickInfo.decode s with
    | none => Except.error QErr.connClosed
    | some r => Except.ok r)

/-- qubic.py, QubicClient.get_tick_data: first obtain the current tick info
(this sends a request on the transport), then reject a requested tick newer
than the node's latest tick, and only otherwise send the tick-data request
and decode the response. -/
def QubicClient.get_tick_data (dv1 dv2 : Nat) (tick_number : Nat) (s : ByteStream) :
    List (List Nat) × Except QErr (TickData × ByteStream) :=
  match QubicClient.get_tick_info dv1 s with
  | (sent1, Except.error e) => (sent1, Except.error e)
  | (sent1, Except.ok (ti, s1)) =>
    if ti.tick < tick_number then
      (sent1, Except.error (QErr.futureTick tick_number ti.tick))
    else
      let pkt := QubicClient._serialize_request TICK_DATA_REQUEST (TickRequest.encode tick_number) dv2
      (sent1 ++ [pkt],
        match TickData.decode s1 with
        | none => Except.error QErr.connClosed
        | some r => Except.ok r)

/-- qubic.py, QubicClient.get_peers: the body is a TODO comment and `pass`,
so every invocation sends nothing, raises nothing, and returns Python None. -/
def QubicClient.get_peers : List (List Nat) × Except QErr (Option Unit) :=
  ([], Except.ok none)

/-! Basic lemmas about the primitives. -/

theorem must_recv_append (p t : ByteStream) (n : Nat) (h : p.length = n) :
    must_recv (p ++ t) n = some (p, t) := by
  unfold must_recv
  rw [if_pos (by simp [h])]
  rw [List.take_left' h, List.drop_left' h]

theorem must_recv_length {s s' b : ByteStream} {n : Nat} (h : must_recv s n = some (b, s')) :
    s'.length = s.length - n ∧ n ≤ s.length ∧ b.length = n := by
  unfold must_recv at h
  split at h
  · rename_i hn
    injection h with h'
    injection h' with h1 h2
    subst h1; subst h2
    simp [Nat.min_eq_left hn, hn]
  · exact absurd h (by simp)

theorem natToLe_length (n k : Nat) : (natToLe n k).length = k := by
  induction k generalizing n with
  | zero => rfl
  | succ k ih => simp [natToLe, ih]

theorem leNat_natToLe (n k : Nat) : leNat (natToLe n k) = n % 256 ^ k := by
  induction k generalizing n with
  | zero => simp [natToLe, leNat, Nat.mod_one]
  | succ k ih =>
    simp only [natToLe, leNat, ih]
    rw [Nat.pow_succ, Nat.mul_comm (256 ^ k) 256, Nat.mod_mul]

theorem natToLe_leNat (l : List Nat) (k : Nat) (hl : l.length = k) (hb : ∀ b ∈ l, b < 256) :
    natToLe (leNat l) k = l := by
  induction k generalizing l with
  | zero =>
    have := List.length_eq_zero.mp hl
    subst this
    rfl
  | succ k ih =>
    match l with
    | [] => simp at hl
    | b :: bs =>
      have hb0 : b < 256 := hb b (by simp)
      have : b + 256 * leNat bs = b + leNat bs * 256 := by ring
      simp only [natToLe, leNat, this]
      rw [Nat.add_mul_mod_self_right, Nat.add_mul_div_right _ _ (by norm_num : (0:Nat) < 256),
        Nat.div_eq_of_lt hb0, Nat.mod_eq_of_lt hb0, Nat.zero_add]
      simp at hl
      simp [ih bs hl (fun x hx => hb x (by simp [hx]))]

theorem leNat_lt (l : List Nat) (hb : ∀ b ∈ l, b < 256) : leNat l < 256 ^ l.length := by
  induction l with
  | nil => simp [leNat]
  | cons b bs ih =>
    have hb0 : b < 256 := hb b (by simp)
    have hbs : leNat bs < 256 ^ bs.length := ih (fun x hx => hb x (by simp [hx]))
    simp only [leNat, List.length_cons, Nat.pow_succ]
    calc b + 256 * leNat bs < 256 + 256 * leNat bs := by omega
    _ = 256 * (leNat bs + 1) := by ring
    _ ≤ 256 * 256 ^ bs.length := by
        exact Nat.mul_le_mul_left _ (by omega)
    _ = 256 ^ bs.length * 256 := by ring

theorem natToLe_lt (n k : Nat) : ∀ b ∈ natToLe n k, b < 256 := by
  induction k generalizing n with
  | zero => simp [natToLe]
  | succ k ih =>
    intro b hb
    simp only [natToLe, List.mem_cons] at hb
    rcases hb with h | h
    · subst h; exact Nat.mod_lt _ (by norm_num)
    · exact ih _ b h

/-! Lemmas about the header decode loop. -/

theorem decodeLoop_consumes {expected fuel : Nat} {s s' : ByteStream} {hdr : RequestResponseHeader}
    (h : RequestResponseHeader.decodeLoop expected fuel s = some (hdr, s')) :
    s'.length + 8 ≤ s.length := by
  induction fuel generalizing s with
  | zero => simp [RequestResponseHeader.decodeLoop] at h
  | succ fuel ih =>
    unfold RequestResponseHeader.decodeLoop at h
    match hrecv : must_recv s 8 with
    | none => rw [hrecv] at h; exact absurd h (by simp)
    | some (hd, rest) =>
      rw [hrecv] at h
      obtain ⟨hrl, hle, -⟩ := must_recv_length hrecv
      simp only at h
      split at h
      · injection h with h'
        injection h' with h1 h2
        subst h2
        omega
      · split at h
        · match hrecv2 : must_recv rest ((headerOf hd).get_size - 8) with
          | none => rw [hrecv2] at h; exact absurd h (by simp)
          | some (ig, rest2) =>
            rw [hrecv2] at h
            obtain ⟨hrl2, -, -⟩ := must_recv_length hrecv2
            have := ih h
            omega
        · injection h with h'
          injection h' with h1 h2
          subst h2
          omega

theorem decodeLoop_fuel_irrel (expected : Nat) :
    ∀ fuel fuel' (s : ByteStream), s.length < fuel → s.length < fuel' →
      RequestResponseHeader.decodeLoop expected fuel s = RequestResponseHeader.decodeLoop expected fuel' s := by
  intro fuel
  induction fuel with
  | zero => intro fuel' s h; omega
  | succ fuel ih =>
    intro fuel' s hf hf'
    match fuel', hf' with
    | fuel' + 1, _ =>
      unfold RequestResponseHeader.decodeLoop
      match hrecv : must_recv s 8 with
      | none => simp
      | some (hd, rest) =>
        obtain ⟨hrl, hle, -⟩ := must_recv_length hrecv
        simp only
        split
        · rfl
        · split
          · match hrecv2 : must_recv rest ((headerOf hd).get_size - 8) with
            | none => simp
            | some (ig, rest2) =>
              obtain ⟨hrl2, -, -⟩ := must_recv_length hrecv2
              simp only
              exact ih fuel' rest2 (by omega) (by omega)
          · rfl

theorem decode_eq_loop_of_fuel {expected fuel : Nat} {s : ByteStream} (h : s.length < fuel) :
    RequestResponseHeader.decodeLoop expected fuel s = RequestResponseHeader.decode expected s :=
  decodeLoop_fuel_irrel expected fuel (s.length + 1) s h (Nat.lt_succ_self _)

/-- One unfolding: terminator frame stops the loop at once. -/
theorem decode_terminator (expected : Nat) (hd t : ByteStream)
    (hlen : hd.length = 8) (hty : hd.getD 3 0 = END_RESPONSE) :
    RequestResponseHeader.decode expected (hd ++ t) = some (headerOf hd, t) := by
  unfold RequestResponseHeader.decode RequestResponseHeader.decodeLoop
  rw [must_recv_append hd t 8 hlen]
  simp only [headerOf, hty]
  simp

/-- One unfolding: a frame of the expected (nonzero, non-terminator) type is
returned immediately. -/
theorem decode_match (expected : Nat) (hd t : ByteStream)
    (hlen : hd.length = 8) (hty : hd.getD 3 0 = expected)
    (hne : expected ≠ END_RESPONSE) (hnz : expected ≠ 0) :
    RequestResponseHeader.decode expected (hd ++ t) = some (headerOf hd, t) := by
  unfold RequestResponseHeader.decode RequestResponseHeader.decodeLoop
  rw [must_recv_append hd t 8 hlen]
  simp only [headerOf, hty]
  rw [if_neg hne, if_neg (by simp [hnz])]

/-- One unfolding: an unrelated (or type-0) frame is discarded whole, header
plus its declared payload, and decoding continues on the remaining stream. -/
theorem decode_skip (expected ty : Nat) (hd p t : ByteStream)
    (hlen : hd.length = 8) (hty : hd.getD 3 0 = ty) (hne : ty ≠ END_RESPONSE)
    (hmis : ty = 0 ∨ ty ≠ expected) (hp : p.length = (headerOf hd).get_size - 8) :
    RequestResponseHeader.decode expected (hd ++ (p ++ t)) =
      RequestResponseHeader.decode expected t := by
  unfold RequestResponseHeader.decode RequestResponseHeader.decodeLoop
  rw [must_recv_append hd (p ++ t) 8 hlen]
  simp only [headerOf] at hp ⊢
  rw [hty] at hp ⊢
  rw [if_neg hne, if_pos hmis]
  rw [← hp]
  rw [must_recv_append p t _ rfl]
  simp only
  have h1 : t.length < (hd ++ (p ++ t)).length + 1 - 1 := by
    simp [hlen]
    omega
  rw [Nat.add_sub_cancel] at h1
  exact decodeLoop_fuel_irrel expected _ (t.length + 1) t h1 (Nat.lt_succ_self _)

/-! Consumption and fuel lemmas for the streaming list decoders. -/

theorem decode_header_consumes {expected : Nat} {s s' : ByteStream} {hdr : RequestResponseHeader}
    (h : RequestResponseHeader.decode expected s = some (hdr, s')) :
    s'.length + 8 ≤ s.length :=
  decodeLoop_consumes h

theorem issuedAssetData_decode_consumes {s s' : ByteStream} {d : IssuedAssetData}
    (h : IssuedAssetData.decode s = some (d, s')) : s'.length ≤ s.length := by
  unfold IssuedAssetData.decode at h
  split at h
  · exact absurd h (by simp)
  · rename_i b rest hr
    obtain ⟨h1, h2, -⟩ := must_recv_length hr
    injection h with h'
    injection h' with h3 h4
    subst h4
    omega

theorem assetInfo_decode_consumes {s s' : ByteStream} {i : AssetInfo}
    (h : AssetInfo.decode s = some (i, s')) : s'.length ≤ s.length := by
  unfold AssetInfo.decode at h
  split at h
  · exact absurd h (by simp)
  · rename_i b rest hr
    obtain ⟨h1, h2, -⟩ := must_recv_length hr
    split at h
    · exact absurd h (by simp)
    · rename_i sib rest2 hr2
      obtain ⟨h3, h4, -⟩ := must_recv_length hr2
      injection h with h'
      injection h' with h5 h6
      subst h6
      omega

theorem quorumTickVote_decode_consumes {s s' : ByteStream} {v : QuorumTickVote}
    (h : QuorumTickVote.decode s = some (v, s')) : s'.length ≤ s.length := by
  unfold QuorumTickVote.decode at h
  split at h
  · exact absurd h (by simp)
  · rename_i b rest hr
    obtain ⟨h1, h2, -⟩ := must_recv_length hr
    injection h with h'
    injection h' with h3 h4
    subst h4
    omega

theorem issuedAssets_decodeLoop_fuel_irrel :
    ∀ fuel fuel' (s : ByteStream), s.length < fuel → s.length < fuel' →
      IssuedAssets.decodeLoop fuel s = IssuedAssets.decodeLoop fuel' s := by
  intro fuel
  induction fuel with
  | zero => intro fuel' s h; omega
  | succ fuel ih =>
    intro fuel' s hf hf'
    match fuel', hf' with
    | fuel' + 1, _ =>
      unfold IssuedAssets.decodeLoop
      split
      · rfl
      · rename_i hdr s1 hh
        have hc1 := decode_header_consumes hh
        split
        · rfl
        · split
          · rfl
          · rename_i d s2 hd
            have hc2 := issuedAssetData_decode_consumes hd
            split
            · rfl
            · rename_i info s3 hi
              have hc3 := assetInfo_decode_consumes hi
              rw [ih fuel' s3 (by omega) (by omega)]

theorem quorumVotes_decodeLoop_fuel_irrel :
    ∀ fuel fuel' (s : ByteStream), s.length < fuel → s.length < fuel' →
      QuorumVotes.decodeLoop fuel s = QuorumVotes.decodeLoop fuel' s := by
  intro fuel
  induction fuel with
  | zero => intro fuel' s h; omega
  | succ fuel ih =>
    intro fuel' s hf hf'
    match fuel', hf' with
    | fuel' + 1, _ =>
      unfold QuorumVotes.decodeLoop
      split
      · rfl
      · rename_i hdr s1 hh
        have hc1 := decode_header_consumes hh
        split
        · rfl
        · split
          · rfl
          · rename_i v s2 hv
            have hc2 := quorumTickVote_decode_consumes hv
            rw [ih fuel' s2 (by omega) (by omega)]

/-! Pure views of one streamed record, and one-step unfoldings of the list
decoders. -/

theorem issuedAssetData_decode_append (p t : ByteStream) (h : 48 ≤ p.length) :
    IssuedAssetData.decode (p ++ t) = some (IssuedAssetData.parse (p.take 48), p.drop 48 ++ t) := by
  unfold IssuedAssetData.decode
  rw [show p ++ t = p.take 48 ++ (p.drop 48 ++ t) from by rw [← List.append_assoc, List.take_append_drop]]
  rw [must_recv_append _ _ 48 (List.length_take_of_le h)]

theorem assetInfo_decode_append (p t : ByteStream) (h : p.length = 776) :
    AssetInfo.decode (p ++ t) =
      some ({ tick := leNat (p.take 4), universe_index := leNat ((p.drop 4).take 4),
              siblings := chunksOf ASSETS_DEPTH 32 (p.drop 8) }, t) := by
  unfold AssetInfo.decode
  have h8 : (8:Nat) ≤ p.length := by omega
  rw [show p ++ t = p.take 8 ++ (p.drop 8 ++ t) from by rw [← List.append_assoc, List.take_append_drop]]
  simp only [must_recv_append _ _ 8 (List.length_take_of_le h8),
    must_recv_append _ _ (ASSETS_DEPTH * 32) (show (p.drop 8).length = ASSETS_DEPTH * 32 from by simp [ASSETS_DEPTH, h])]
  simp [List.take_take, List.drop_take]

theorem quorumTickVote_decode_append (p t : ByteStream) (h : p.length = 344) :
    QuorumTickVote.decode (p ++ t) = some (QuorumTickVote.parse p, t) := by
  unfold QuorumTickVote.decode
  rw [must_recv_append _ _ 344 h]

theorem issuedAssets_decode_term (th t : ByteStream) (hh : th.length = 8)
    (hty : th.getD 3 0 = END_RESPONSE) :
    IssuedAssets.decode (th ++ t) = some ([], t) := by
  unfold IssuedAssets.decode
  unfold IssuedAssets.decodeLoop
  rw [decode_terminator _ th t hh hty]
  simp only [headerOf, hty]
  simp

theorem issuedAssets_decode_cons (hd p t : ByteStream) (hh : hd.length = 8)
    (hty : hd.getD 3 0 = ISSUED_ASSETS_RESPONSE) (hp : p.length = 824) :
    IssuedAssets.decode (hd ++ (p ++ t)) =
      (IssuedAssets.decode t).map (fun r => (issuedRecordOfPayload p :: r.1, r.2)) := by
  conv_lhs => unfold IssuedAssets.decode IssuedAssets.decodeLoop
  rw [decode_match _ hd (p ++ t) hh hty (by simp [ISSUED_ASSETS_RESPONSE, END_RESPONSE]) (by simp [ISSUED_ASSETS_RESPONSE])]
  simp only [headerOf, hty]
  rw [if_neg (by simp [ISSUED_ASSETS_RESPONSE, END_RESPONSE])]
  simp only [issuedAssetData_decode_append p t (by omega),
    assetInfo_decode_append (p.drop 48) t (by simp [hp])]
  have hlt : t.length < (hd ++ (p ++ t)).length := by
    simp only [List.length_append, hh, hp]
    omega
  rw [issuedAssets_decodeLoop_fuel_irrel _ (t.length + 1) t hlt (Nat.lt_succ_self _)]
  rw [show IssuedAssets.decodeLoop (t.length + 1) t = IssuedAssets.decode t from rfl]
  cases hres : IssuedAssets.decode t with
  | none => rfl
  | some r => rfl

theorem quorumVotes_decode_term (th t : ByteStream) (hh : th.length = 8)
    (hty : th.getD 3 0 = END_RESPONSE) :
    QuorumVotes.decode (th ++ t) = some ([], t) := by
  unfold QuorumVotes.decode
  unfold QuorumVotes.decodeLoop
  rw [decode_terminator _ th t hh hty]
  simp only [headerOf, hty]
  simp

theorem quorumVotes_decode_cons (hd p t : ByteStream) (hh : hd.length = 8)
    (hty : hd.getD 3 0 = QUORUM_TICK_RESPONSE) (hp : p.length = 344) :
    QuorumVotes.decode (hd ++ (p ++ t)) =
      (QuorumVotes.decode t).map (fun r => (QuorumTickVote.parse p :: r.1, r.2)) := by
  conv_lhs => unfold QuorumVotes.decode QuorumVotes.decodeLoop
  rw [decode_match _ hd (p ++ t) hh hty (by simp [QUORUM_TICK_RESPONSE, END_RESPONSE]) (by simp [QUORUM_TICK_RESPONSE])]
  simp only [headerOf, hty]
  rw [if_neg (by simp [QUORUM_TICK_RESPONSE, END_RESPONSE])]
  simp only [quorumTickVote_decode_append p t hp]
  have hlt : t.length < (hd ++ (p ++ t)).length := by
    simp only [List.length_append, hh, hp]
    omega
  rw [quorumVotes_decodeLoop_fuel_irrel _ (t.length + 1) t hlt (Nat.lt_succ_self _)]
  rw [show QuorumVotes.decodeLoop (t.length + 1) t = QuorumVotes.decode t from rfl]
  cases hres : QuorumVotes.decode t with
  | none => rfl
  | some r => rfl

/-- C3: the frame-header decode loop stops immediately on a terminator
(type 35) frame regardless of the expected type; on a frame whose type is 0
or differs from the expected type it discards exactly the frame's declared
payload, size minus 8 bytes, and continues with the next header; on a frame
of the expected type it returns that header; in particular two unrelated
frames followed by an expected-type frame are consumed whole and the
expected frame's header is returned. -/
theorem header_decode_filtering :
    (∀ (expected : Nat) (hd t : ByteStream), hd.length = 8 → hd.getD 3 0 = END_RESPONSE →
      RequestResponseHeader.decode expected (hd ++ t) = some (headerOf hd, t))
    ∧ (∀ (expected ty : Nat) (hd p t : ByteStream), hd.length = 8 → hd.getD 3 0 = ty →
        ty ≠ END_RESPONSE → (ty = 0 ∨ ty ≠ expected) → p.length = (headerOf hd).get_size - 8 →
        RequestResponseHeader.decode expected (hd ++ (p ++ t)) = RequestResponseHeader.decode expected t)
    ∧ (∀ (expected : Nat) (hd t : ByteStream), hd.length = 8 → hd.getD 3 0 = expected →
        expected ≠ END_RESPONSE → expected ≠ 0 →
        RequestResponseHeader.decode expected (hd ++ t) = some (headerOf hd, t))
    ∧ (∀ (expected ty1 ty2 : Nat) (h1 p1 h2 p2 h3 t : ByteStream),
        h1.length = 8 → h1.getD 3 0 = ty1 → ty1 ≠ END_RESPONSE → ty1 ≠ expected →
        p1.length = (headerOf h1).get_size - 8 →
        h2.length = 8 → h2.getD 3 0 = ty2 → ty2 ≠ END_RESPONSE → ty2 ≠ expected →
        p2.length = (headerOf h2).get_size - 8 →
        h3.length = 8 → h3.getD 3 0 = expected → expected ≠ END_RESPONSE → expected ≠ 0 →
        RequestResponseHeader.decode expected (h1 ++ (p1 ++ (h2 ++ (p2 ++ (h3 ++ t))))) =
          some (headerOf h3, t)) := by
  refine ⟨decode_terminator, ?_, decode_match, ?_⟩
  · intro expected ty hd p t hh hty hne hmis hp
    exact decode_skip expected ty hd p t hh hty hne hmis hp
  · intro expected ty1 ty2 h1 p1 h2 p2 h3 t hl1 hty1 hne1 hex1 hp1 hl2 hty2 hne2 hex2 hp2 hl3 hty3 hne hnz
    rw [decode_skip expected ty1 h1 p1 _ hl1 hty1 hne1 (Or.inr hex1) hp1]
    rw [decode_skip expected ty2 h2 p2 _ hl2 hty2 hne2 (Or.inr hex2) hp2]
    exact decode_match expected h3 t hl3 hty3 hne hnz

/-- Witness for C3 at concrete frames: a terminator frame, a skipped frame of
type 7 carrying 2 payload bytes, a matched frame of type 37, and a stream of
two unrelated frames followed by a type-37 frame. -/
theorem header_decode_filtering_witness :
    RequestResponseHeader.decode 37 ([0, 0, 0, 35, 0, 0, 0, 0] ++ [1, 2]) =
      some (headerOf [0, 0, 0, 35, 0, 0, 0, 0], [1, 2])
    ∧ RequestResponseHeader.decode 37 ([10, 0, 0, 7, 0, 0, 0, 0] ++ ([9, 9] ++ [3])) =
      RequestResponseHeader.decode 37 [3]
    ∧ RequestResponseHeader.decode 37 ([8, 0, 0, 37, 1, 2, 3, 4] ++ [5]) =
      some (headerOf [8, 0, 0, 37, 1, 2, 3, 4], [5])
    ∧ RequestResponseHeader.decode 37
        ([9, 0, 0, 7, 0, 0, 0, 0] ++ ([1] ++ ([8, 0, 0, 9, 0, 0, 0, 0] ++ ([] ++ ([8, 0, 0, 37, 0, 0, 0, 0] ++ [6]))))) =
      some (headerOf [8, 0, 0, 37, 0, 0, 0, 0], [6]) :=
  ⟨header_decode_filtering.1 37 _ _ (by decide) (by decide),
   header_decode_filtering.2.1 37 7 _ _ _ (by decide) (by decide) (by decide) (by decide) (by decide),
   header_decode_filtering.2.2.1 37 _ _ (by decide) (by decide) (by decide) (by decide),
   header_decode_filtering.2.2.2 37 7 9 _ _ _ _ _ _ (by decide) (by decide) (by decide) (by decide)
     (by decide) (by decide) (by decide) (by decide) (by decide) (by decide) (by decide) (by decide)
     (by decide) (by decide)⟩

/-- C2: for a streamed list response (issued assets, quorum votes): a stream
of N well-formed record frames of the expected type followed by one
terminator frame decodes to exactly the N records in arrival order; a stream
of only a terminator frame decodes to the empty list (the N = 0 instance). -/
theorem streaming_decode_records :
    (∀ (frames : List (List Nat × List Nat)) (th t : ByteStream),
      (∀ f ∈ frames, f.1.length = 8 ∧ f.1.getD 3 0 = ISSUED_ASSETS_RESPONSE ∧ f.2.length = 824) →
      th.length = 8 → th.getD 3 0 = END_RESPONSE →
      IssuedAssets.decode (frames.foldr (fun f acc => f.1 ++ (f.2 ++ acc)) (th ++ t)) =
        some (frames.map (fun f => issuedRecordOfPayload f.2), t))
    ∧ (∀ (frames : List (List Nat × List Nat)) (th t : ByteStream),
      (∀ f ∈ frames, f.1.length = 8 ∧ f.1.getD 3 0 = QUORUM_TICK_RESPONSE ∧ f.2.length = 344) →
      th.length = 8 → th.getD 3 0 = END_RESPONSE →
      QuorumVotes.decode (frames.foldr (fun f acc => f.1 ++ (f.2 ++ acc)) (th ++ t)) =
        some (frames.map (fun f => QuorumTickVote.parse f.2), t)) := by
  constructor
  · intro frames
    induction frames with
    | nil =>
      intro th t hf hth hty
      simpa using issuedAssets_decode_term th t hth hty
    | cons f fs ih =>
      intro th t hf hth hty
      obtain ⟨hf1, hf2, hf3⟩ := hf f (List.mem_cons_self f fs)
      simp only [List.foldr_cons]
      rw [issuedAssets_decode_cons f.1 f.2 _ hf1 hf2 hf3]
      rw [ih th t (fun g hg => hf g (List.mem_cons_of_mem f hg)) hth hty]
      simp
  · intro frames
    induction frames with
    | nil =>
      intro th t hf hth hty
      simpa using quorumVotes_decode_term th t hth hty
    | cons f fs ih =>
      intro th t hf hth hty
      obtain ⟨hf1, hf2, hf3⟩ := hf f (List.mem_cons_self f fs)
      simp only [List.foldr_cons]
      rw [quorumVotes_decode_cons f.1 f.2 _ hf1 hf2 hf3]
      rw [ih th t (fun g hg => hf g (List.mem_cons_of_mem f hg)) hth hty]
      simp

/-- Witness for C2: one issued-asset record frame followed by a terminator
decodes to that single record; a lone terminator on the quorum-vote stream
decodes to the empty vote list. -/
theorem streaming_decode_records_witness :
    IssuedAssets.decode
        ([([8, 0, 0, 37, 0, 0, 0, 0], List.replicate 824 0)].foldr
          (fun f acc => f.1 ++ (f.2 ++ acc)) ([0, 0, 0, 35, 0, 0, 0, 0] ++ [7])) =
      some ([issuedRecordOfPayload (List.replicate 824 0)], [7])
    ∧ QuorumVotes.decode
        (([] : List (List Nat × List Nat)).foldr
          (fun f acc => f.1 ++ (f.2 ++ acc)) ([0, 0, 0, 35, 0, 0, 0, 0] ++ [9])) =
      some ([], [9]) :=
  ⟨by
    have := streaming_decode_records.1 [([8, 0, 0, 37, 0, 0, 0, 0], List.replicate 824 0)]
      [0, 0, 0, 35, 0, 0, 0, 0] [7]
      (by
        intro f hf
        simp only [List.mem_singleton] at hf
        subst hf
        exact ⟨rfl, rfl, List.length_replicate 824 0⟩)
      (by decide) (by decide)
    simp only [List.map_cons, List.map_nil] at this
    exact this,
   by
    have := streaming_decode_records.2 ([] : List (List Nat × List Nat))
      [0, 0, 0, 35, 0, 0, 0, 0] [9] (by intro f hf; simp at hf) (by decide) (by decide)
    simp only [List.map_nil] at this
    exact this⟩

theorem must_recv_exact {s : ByteStream} {n : Nat} (h : s.length = n) :
    must_recv s n = some (s, []) := by
  subst h
  unfold must_recv
  simp

theorem sIntToLe_length (v : Int) (k : Nat) : (sIntToLe v k).length = k := by
  unfold sIntToLe
  exact natToLe_length _ _

theorem sIntOfLe_sIntToLe (v : Int) (h1 : -2 ^ 63 ≤ v) (h2 : v < 2 ^ 63) :
    sIntOfLe (sIntToLe v 8) = v := by
  unfold sIntOfLe sIntToLe
  rw [leNat_natToLe]
  have e1 : (256:Nat) ^ 8 = 2 ^ 64 := by norm_num
  have e0 : (8:Nat) * 8 = 64 := by norm_num
  rw [e1, e0]
  have hnn : (0:Int) ≤ v.emod (2 ^ 64) := Int.emod_nonneg v (by norm_num)
  have hlt : v.emod (2 ^ 64) < 2 ^ 64 := Int.emod_lt_of_pos v (by norm_num)
  have hcast : ((v.emod (2 ^ 64)).toNat : Int) = v.emod (2 ^ 64) := Int.toNat_of_nonneg hnn
  have hm : (v.emod (2 ^ 64)).toNat % 2 ^ 64 = (v.emod (2 ^ 64)).toNat :=
    Nat.mod_eq_of_lt (by omega)
  rw [hm]
  have hdef : v.emod (2 ^ 64) = v - 2 ^ 64 * (v / 2 ^ 64) := Int.emod_def v _
  show (if (v.emod (2 ^ 64)).toNat < 2 ^ 63 then ((v.emod (2 ^ 64)).toNat : Int)
    else ((v.emod (2 ^ 64)).toNat : Int) - 2 ^ 64) = v
  split
  · omega
  · omega

/-- C1: decoding the byte stream produced by Transaction.encode on any valid
transaction value (32-byte keys, 64-byte signature, input length equal to the
input_size field, all packed fields within their widths) reproduces the value
exactly in every field and consumes the whole stream; zero-length and
65535-byte inputs are instances. -/
theorem transaction_decode_encode (t : Transaction) (h : t.wf) :
    Transaction.decode t.encode = some (t, []) := by
  obtain ⟨h1, h2, h3, h4, h5, h6, h7, h8, h9, hb1, hb2, hb3, hb4⟩ := h
  have hA : (sIntToLe t.amount 8).length = 8 := sIntToLe_length _ _
  have hB : (natToLe t.tick 4).length = 4 := natToLe_length _ _
  have hC : (natToLe t.input_type 2).length = 2 := natToLe_length _ _
  have hD : (natToLe t.input_size 2).length = 2 := natToLe_length _ _
  set F : List Nat := t.source_public_key ++ (t.destination_public_key ++
    (sIntToLe t.amount 8 ++ (natToLe t.tick 4 ++
      (natToLe t.input_type 2 ++ natToLe t.input_size 2)))) with hFdef
  have hF80 : F.length = 80 := by
    simp [hFdef, h1, h2, hA, hB, hC, hD]
  have hE : t.encode = F ++ (t.input ++ t.signature) := by
    simp only [Transaction.encode, hFdef, List.append_assoc]
  have e32 : F.take 32 = t.source_public_key := List.take_left' h1
  have d32 : F.drop 32 = t.destination_public_key ++
      (sIntToLe t.amount 8 ++ (natToLe t.tick 4 ++ (natToLe t.input_type 2 ++ natToLe t.input_size 2))) :=
    List.drop_left' h1
  have e64 : (F.drop 32).take 32 = t.destination_public_key := by
    rw [d32]; exact List.take_left' h2
  have d64 : F.drop 64 = sIntToLe t.amount 8 ++ (natToLe t.tick 4 ++ (natToLe t.input_type 2 ++ natToLe t.input_size 2)) := by
    rw [show (64:Nat) = 32 + 32 from rfl, ← List.drop_drop, d32]
    exact List.drop_left' h2
  have e72 : (F.drop 64).take 8 = sIntToLe t.amount 8 := by
    rw [d64]; exact List.take_left' hA
  have d72 : F.drop 72 = natToLe t.tick 4 ++ (natToLe t.input_type 2 ++ natToLe t.input_size 2) := by
    rw [show (72:Nat) = 64 + 8 from rfl, ← List.drop_drop, d64]
    exact List.drop_left' hA
  have e76 : (F.drop 72).take 4 = natToLe t.tick 4 := by
    rw [d72]; exact List.take_left' hB
  have d76 : F.drop 76 = natToLe t.input_type 2 ++ natToLe t.input_size 2 := by
    rw [show (76:Nat) = 72 + 4 from rfl, ← List.drop_drop, d72]
    exact List.drop_left' hB
  have e78 : (F.drop 76).take 2 = natToLe t.input_type 2 := by
    rw [d76]; exact List.take_left' hC
  have d78 : F.drop 78 = natToLe t.input_size 2 := by
    rw [show (78:Nat) = 76 + 2 from rfl, ← List.drop_drop, d76]
    exact List.drop_left' hC
  have e80 : (F.drop 78).take 2 = natToLe t.input_size 2 := by
    rw [d78]
    exact List.take_of_length_le (le_of_eq hD)
  have vA : sIntOfLe ((F.drop 64).take 8) = t.amount := by
    rw [e72]; exact sIntOfLe_sIntToLe _ h5 h6
  have vB : leNat ((F.drop 72).take 4) = t.tick := by
    rw [e76, leNat_natToLe]
    exact Nat.mod_eq_of_lt (by norm_num; omega)
  have vC : leNat ((F.drop 76).take 2) = t.input_type := by
    rw [e78, leNat_natToLe]
    exact Nat.mod_eq_of_lt (by norm_num; omega)
  have vD : leNat ((F.drop 78).take 2) = t.input_size := by
    rw [e80, leNat_natToLe]
    exact Nat.mod_eq_of_lt (by norm_num; omega)
  rw [hE]
  unfold Transaction.decode
  simp only [must_recv_append F _ 80 hF80]
  simp only [vA, vB, vC, vD, e32, e64]
  by_cases hsz : t.input_size = 0
  · have hinp : t.input = [] := List.eq_nil_of_length_eq_zero (by omega)
    rw [if_neg (by omega)]
    simp only [hinp, List.nil_append]
    simp only [must_recv_exact h3]
    rw [← hinp]
  · rw [if_pos (by omega)]
    simp only [must_recv_append _ _ _ h4]
    simp only [must_recv_exact h3]

/-- Witness for C1 at the boundary inputs: a zero-length-input transaction
and a maximal 65535-byte-input transaction both round-trip. -/
theorem transaction_decode_encode_witness :
    Transaction.decode (Transaction.encode
      { source_public_key := List.replicate 32 0, destination_public_key := List.replicate 32 1,
        amount := -5, tick := 7, input_type := 1, input_size := 0, input := [],
        signature := List.replicate 64 2 }) =
      some (⟨List.replicate 32 0, List.replicate 32 1, -5, 7, 1, 0, [], List.replicate 64 2⟩, [])
    ∧ Transaction.decode (Transaction.encode
      { source_public_key := List.replicate 32 0, destination_public_key := List.replicate 32 1,
        amount := 9, tick := 3, input_type := 2, input_size := 65535,
        input := List.replicate 65535 3, signature := List.replicate 64 2 }) =
      some (⟨List.replicate 32 0, List.replicate 32 1, 9, 3, 2, 65535,
        List.replicate 65535 3, List.replicate 64 2⟩, []) :=
  ⟨transaction_decode_encode _
    ⟨List.length_replicate 32 0, List.length_replicate 32 1, List.length_replicate 64 2,
     rfl, by norm_num, by norm_num, by norm_num, by norm_num, by norm_num,
     fun b hb => by rw [List.eq_of_mem_replicate hb]; norm_num,
     fun b hb => by rw [List.eq_of_mem_replicate hb]; norm_num,
     fun b hb => by simp at hb,
     fun b hb => by rw [List.eq_of_mem_replicate hb]; norm_num⟩,
   transaction_decode_encode _
    ⟨List.length_replicate 32 0, List.length_replicate 32 1, List.length_replicate 64 2,
     List.length_replicate 65535 3, by norm_num, by norm_num, by norm_num, by norm_num, by norm_num,
     fun b hb => by rw [List.eq_of_mem_replicate hb]; norm_num,
     fun b hb => by rw [List.eq_of_mem_replicate hb]; norm_num,
     fun b hb => by rw [List.eq_of_mem_replicate hb]; norm_num,
     fun b hb => by rw [List.eq_of_mem_replicate hb]; norm_num⟩⟩

/-- C8: the encoded length of a transaction whose keys, signature and input
have their declared sizes is 80 + input_size + 64. -/
theorem transaction_encode_length (t : Transaction)
    (h1 : t.source_public_key.length = 32) (h2 : t.destination_public_key.length = 32)
    (h3 : t.signature.length = 64) (h4 : t.input.length = t.input_size) :
    t.encode.length = 80 + t.input_size + 64 := by
  simp [Transaction.encode, natToLe_length, sIntToLe_length, h1, h2, h3, h4]
  omega

/-- Witness for C8 at a concrete 5-byte-input transaction. -/
theorem transaction_encode_length_witness :
    (Transaction.encode
      { source_public_key := List.replicate 32 4, destination_public_key := List.replicate 32 5,
        amount := 11, tick := 1, input_type := 0, input_size := 5, input := [1, 2, 3, 4, 5],
        signature := List.replicate 64 6 }).length = 80 + 5 + 64 :=
  transaction_encode_length _ (List.length_replicate 32 4) (List.length_replicate 32 5)
    (List.length_replicate 64 6) rfl

theorem digitsBase26_length (n k : Nat) : (digitsBase26 n k).length = k := by
  induction k generalizing n with
  | zero => rfl
  | succ k ih => simp [digitsBase26, ih]

theorem digitsBase26_lt (n k : Nat) : ∀ d ∈ digitsBase26 n k, d < 26 := by
  induction k generalizing n with
  | zero => simp [digitsBase26]
  | succ k ih =>
    intro d hd
    simp only [digitsBase26, List.mem_cons] at hd
    rcases hd with h | h
    · subst h; exact Nat.mod_lt _ (by norm_num)
    · exact ih _ d h

theorem digitsBase26_getD (n k m : Nat) (h : m < k) :
    (digitsBase26 n k).getD m 0 = n / 26 ^ m % 26 := by
  induction k generalizing n m with
  | zero => omega
  | succ k ih =>
    match m with
    | 0 => simp [digitsBase26]
    | m + 1 =>
      simp only [digitsBase26, List.getD_cons_succ]
      rw [ih _ _ (by omega)]
      rw [Nat.div_div_eq_div_mul, Nat.pow_succ, Nat.mul_comm 26 (26 ^ m)]

theorem foldl_digits (k : Nat) : ∀ (f a : Nat) (dig : Nat → Nat), f < 26 ^ (k + 1) →
    (∀ m, m ≤ k → dig m = f / 26 ^ m % 26) →
    (List.range (k + 1)).foldl (fun v j => v * 26 + dig (k - j)) a = a * 26 ^ (k + 1) + f := by
  induction k with
  | zero =>
    intro f a dig hf hdig
    rw [show List.range 1 = [0] from rfl]
    simp only [List.foldl_cons, List.foldl_nil]
    rw [hdig 0 (by omega)]
    simp only [Nat.pow_zero, Nat.div_one, Nat.pow_one]
    omega
  | succ k ih =>
    intro f a dig hf hdig
    rw [List.range_succ, List.foldl_append]
    have hext : (List.range (k + 1)).foldl (fun v j => v * 26 + dig (k + 1 - j)) a =
        (List.range (k + 1)).foldl (fun v j => v * 26 + (fun m => dig (m + 1)) (k - j)) a := by
      apply List.foldl_ext
      intro v j hj
      have hjk : j < k + 1 := List.mem_range.mp hj
      have he : k + 1 - j = (k - j) + 1 := by omega
      rw [he]
    rw [hext, ih (f / 26) a (fun m => dig (m + 1))
      (by rw [Nat.div_lt_iff_lt_mul (by norm_num)]; calc f < 26 ^ (k+1+1) := hf
          _ = 26 ^ (k+1) * 26 := by rw [Nat.pow_succ]
        )
      (by
        intro m hm
        show dig (m + 1) = f / 26 / 26 ^ m % 26
        rw [hdig (m + 1) (by omega), Nat.div_div_eq_div_mul, Nat.pow_succ,
          Nat.mul_comm (26 ^ m) 26])]
    simp only [List.foldl_cons, List.foldl_nil]
    rw [hdig (k + 1 - (k + 1)) (by omega)]
    simp only [Nat.sub_self, Nat.pow_zero, Nat.div_one]
    have hsplit : f = 26 * (f / 26) + f % 26 := (Nat.div_add_mod f 26).symm
    conv_rhs => rw [hsplit]
    rw [Nat.pow_succ]
    ring

theorem getD_append_off (a b : List Nat) (n m d : Nat) (h : a.length = n) :
    (a ++ b).getD (n + m) d = b.getD m d := by
  rw [List.getD_append_right _ _ _ _ (by omega)]
  congr 1
  omega

theorem getD_map_add (l : List Nat) (c m : Nat) (h : m < l.length) :
    (l.map (fun d => d + c)).getD m 0 = l.getD m 0 + c := by
  rw [List.getD_eq_getElem _ _ (by simpa using h), List.getD_eq_getElem _ _ h]
  simp

theorem key_slices (key : List Nat) (h : key.length = 32) :
    key.take 8 ++ ((key.drop 8).take 8 ++ ((key.drop 16).take 8 ++ (key.drop 24).take 8)) = key := by
  have e24 : (key.drop 24).take 8 = key.drop 24 := List.take_of_length_le (by simp [h])
  have s16 : (key.drop 16).take 8 ++ key.drop 24 = key.drop 16 := by
    have hx := List.take_append_drop 8 (key.drop 16)
    rw [List.drop_drop] at hx
    norm_num at hx
    exact hx
  have s8 : (key.drop 8).take 8 ++ key.drop 16 = key.drop 8 := by
    have hx := List.take_append_drop 8 (key.drop 8)
    rw [List.drop_drop] at hx
    norm_num at hx
    exact hx
  rw [e24, s16, s8, List.take_append_drop]

/-- C4: for any 32-byte public key and either alphabet case, decoding the
60-character identity produced by Identity.from_pub_key with
Identity.to_pub_key reproduces the key bit for bit, for every value of the
hash-derived checksum (whose 4 characters decode ignores). -/
theorem identity_round_trip (key : List Nat) (hlen : key.length = 32)
    (hb : ∀ b ∈ key, b < 256) (lc : Bool) (checksum_int : Nat) :
    (Identity.from_pub_key key lc checksum_int).bind
      (fun ident => Identity.to_pub_key ident lc) = some key := by
  have hfraglen : ∀ i : Nat, i < 4 → ((key.drop (i * 8)).take 8).length = 8 := by
    intro i hi
    rw [List.length_take, List.length_drop, hlen]
    omega
  have hfragbyte : ∀ i : Nat, ∀ b ∈ (key.drop (i * 8)).take 8, b < 256 := by
    intro i b hbb
    exact hb b (List.mem_of_mem_drop (List.mem_of_mem_take hbb))
  have hfraglt : ∀ i : Nat, i < 4 → leNat ((key.drop (i * 8)).take 8) < 2 ^ 64 := by
    intro i hi
    have hx := leNat_lt _ (hfragbyte i)
    rw [hfraglen i hi] at hx
    calc leNat ((key.drop (i * 8)).take 8) < 256 ^ 8 := hx
    _ = 2 ^ 64 := by norm_num
  simp only [Identity.from_pub_key]
  rw [if_pos (by omega)]
  simp only [Option.some_bind]
  simp only [Identity.to_pub_key]
  set letter : Nat := if lc then 97 else 65 with hletter
  set E : List Nat :=
    (digitsBase26 (leNat ((key.drop (0 * 8)).take 8)) 14).map (fun d => d + letter) ++
    (digitsBase26 (leNat ((key.drop (1 * 8)).take 8)) 14).map (fun d => d + letter) ++
    (digitsBase26 (leNat ((key.drop (2 * 8)).take 8)) 14).map (fun d => d + letter) ++
    (digitsBase26 (leNat ((key.drop (3 * 8)).take 8)) 14).map (fun d => d + letter) ++
    (digitsBase26 (checksum_int &&& 0x3FFFF) 4).map (fun d => d + letter) with hE
  have htop : (if lc then (122:Nat) else 90) = letter + 25 := by
    cases lc <;> simp [hletter]
  have hglen : ∀ i : Nat,
      ((digitsBase26 (leNat ((key.drop (i * 8)).take 8)) 14).map (fun d => d + letter)).length = 14 := by
    intro i
    rw [List.length_map, digitsBase26_length]
  have hall : ∀ c ∈ E, letter ≤ c ∧ c ≤ (if lc then (122:Nat) else 90) := by
    intro c hc
    rw [htop]
    simp only [hE, List.append_assoc, List.mem_append, List.mem_map] at hc
    have hdig : ∃ d, d < 26 ∧ d + letter = c := by
      rcases hc with ⟨d, hd, rfl⟩ | ⟨d, hd, rfl⟩ | ⟨d, hd, rfl⟩ | ⟨d, hd, rfl⟩ | ⟨d, hd, rfl⟩
      · exact ⟨d, digitsBase26_lt _ _ d hd, rfl⟩
      · exact ⟨d, digitsBase26_lt _ _ d hd, rfl⟩
      · exact ⟨d, digitsBase26_lt _ _ d hd, rfl⟩
      · exact ⟨d, digitsBase26_lt _ _ d hd, rfl⟩
      · exact ⟨d, digitsBase26_lt _ _ d hd, rfl⟩
    obtain ⟨d, hd26, rfl⟩ := hdig
    omega
  have hlen60 : E.length = 60 := by
    simp only [hE, List.length_append, List.length_map, digitsBase26_length]
  rw [if_pos hall, if_pos hlen60]
  have hgetD : ∀ i : Nat, i < 4 → ∀ m : Nat, m < 14 →
      E.getD (i * 14 + m) 0 = (digitsBase26 (leNat ((key.drop (i * 8)).take 8)) 14).getD m 0 + letter := by
    intro i hi m hm
    interval_cases i
    · rw [show 0 * 14 + m = m from by omega]
      rw [hE]
      simp only [List.append_assoc]
      rw [List.getD_append _ _ _ _ (by rw [hglen 0]; omega)]
      exact getD_map_add _ _ _ (by rw [digitsBase26_length]; omega)
    · rw [show 1 * 14 + m = 14 + m from by omega]
      rw [hE]
      simp only [List.append_assoc]
      rw [getD_append_off _ _ 14 m 0 (hglen 0)]
      rw [List.getD_append _ _ _ _ (by rw [hglen 1]; omega)]
      exact getD_map_add _ _ _ (by rw [digitsBase26_length]; omega)
    · rw [show 2 * 14 + m = 14 + (14 + m) from by omega]
      rw [hE]
      simp only [List.append_assoc]
      rw [getD_append_off _ _ 14 (14 + m) 0 (hglen 0)]
      rw [getD_append_off _ _ 14 m 0 (hglen 1)]
      rw [List.getD_append _ _ _ _ (by rw [hglen 2]; omega)]
      exact getD_map_add _ _ _ (by rw [digitsBase26_length]; omega)
    · rw [show 3 * 14 + m = 14 + (14 + (14 + m)) from by omega]
      rw [hE]
      simp only [List.append_assoc]
      rw [getD_append_off _ _ 14 (14 + (14 + m)) 0 (hglen 0)]
      rw [getD_append_off _ _ 14 (14 + m) 0 (hglen 1)]
      rw [getD_append_off _ _ 14 m 0 (hglen 2)]
      rw [List.getD_append _ _ _ _ (by rw [hglen 3]; omega)]
      exact getD_map_add _ _ _ (by rw [digitsBase26_length]; omega)
  have hval : ∀ i : Nat, i < 4 →
      (List.range 14).foldl (fun v j => v * 26 + (E.getD (i * 14 + (13 - j)) 0 - letter)) 0 =
        leNat ((key.drop (i * 8)).take 8) := by
    intro i hi
    have hlt14 : leNat ((key.drop (i * 8)).take 8) < 26 ^ (13 + 1) := by
      calc leNat ((key.drop (i * 8)).take 8) < 2 ^ 64 := hfraglt i hi
      _ < 26 ^ (13 + 1) := by norm_num
    have hd : ∀ m : Nat, m ≤ 13 →
        (fun m => E.getD (i * 14 + m) 0 - letter) m =
          leNat ((key.drop (i * 8)).take 8) / 26 ^ m % 26 := by
      intro m hm
      show E.getD (i * 14 + m) 0 - letter = _
      rw [hgetD i hi m (by omega)]
      rw [digitsBase26_getD _ _ _ (by omega)]
      omega
    have := foldl_digits 13 (leNat ((key.drop (i * 8)).take 8)) 0
      (fun m => E.getD (i * 14 + m) 0 - letter) hlt14 hd
    simpa using this
  rw [if_pos ⟨by rw [hval 0 (by omega)]; exact hfraglt 0 (by omega),
      by rw [hval 1 (by omega)]; exact hfraglt 1 (by omega),
      by rw [hval 2 (by omega)]; exact hfraglt 2 (by omega),
      by rw [hval 3 (by omega)]; exact hfraglt 3 (by omega)⟩]
  rw [hval 0 (by omega), hval 1 (by omega), hval 2 (by omega), hval 3 (by omega)]
  rw [natToLe_leNat _ 8 (hfraglen 0 (by omega)) (hfragbyte 0),
    natToLe_leNat _ 8 (hfraglen 1 (by omega)) (hfragbyte 1),
    natToLe_leNat _ 8 (hfraglen 2 (by omega)) (hfragbyte 2),
    natToLe_leNat _ 8 (hfraglen 3 (by omega)) (hfragbyte 3)]
  simp only [List.append_assoc]
  rw [show (0 * 8 : Nat) = 0 from by omega, show (1 * 8 : Nat) = 8 from by omega,
    show (2 * 8 : Nat) = 16 from by omega, show (3 * 8 : Nat) = 24 from by omega,
    List.drop_zero]
  rw [key_slices key hlen]

/-- Witness for C4: the all-zero 32-byte key round-trips through the
uppercase identity encoding with an arbitrary checksum value of 0. -/
theorem identity_round_trip_witness :
    (Identity.from_pub_key (List.replicate 32 0) false 0).bind
      (fun ident => Identity.to_pub_key ident false) = some (List.replicate 32 0) :=
  identity_round_trip _ (List.length_replicate 32 0)
    (fun b hb => by rw [List.eq_of_mem_replicate hb]; norm_num) false 0

/-- C10: Identity.to_pub_key is not total on strings accepted by its own
length-and-alphabet validation: the 60-character identity made of 60 copies
of the letter Z (code 90) passes both checks, yet its first 14-character
group denotes 26 ^ 14 - 1 ≥ 2 ^ 64, which does not fit the 8-byte output
chunk, so the conversion fails (struct.error in the source). -/
theorem to_pub_key_not_total :
    (List.replicate 60 90).length = 60
    ∧ (∀ c ∈ List.replicate 60 90, 65 ≤ c ∧ c ≤ 90)
    ∧ Identity.to_pub_key (List.replicate 60 90) false = none := by
  refine ⟨by decide, by decide, by decide⟩

/-! Lemmas about the filter builders. -/

theorem pad_name_length (nm : List Nat) :
    (nm.take 8 ++ List.replicate (8 - (nm.take 8).length) 0).length = 8 := by
  rw [List.length_append, List.length_replicate, List.length_take]
  omega

theorem pad_name_getD (nm : List Nat) (i : Nat) (hi : i < 8) :
    (nm.take 8 ++ List.replicate (8 - (nm.take 8).length) 0).getD i 0 =
      if i < nm.length then nm.getD i 0 else 0 := by
  by_cases h : i < (nm.take 8).length
  · rw [List.getD_append _ _ _ _ h]
    have hlen : i < nm.length := by
      rw [List.length_take] at h
      omega
    rw [if_pos hlen]
    rw [List.getD_eq_getElem _ _ h, List.getD_eq_getElem _ _ hlen]
    exact List.getElem_take _
  · rw [List.getD_append_right _ _ _ _ (by omega)]
    have hlen : ¬ i < nm.length := by
      rw [List.length_take] at h
      omega
    rw [if_neg hlen]
    by_cases h2 : i - (nm.take 8).length < 8 - (nm.take 8).length
    · rw [List.getD_eq_getElem _ _ (by rw [List.length_replicate]; omega)]
      simp
    · exact List.getD_eq_default _ _ (by rw [List.length_replicate]; omega)

theorem create_by_filter_fields {rt : Nat} {ai : AssetInformation} {oi po : AssetHolderInformation}
    {req : RequestAssetsByFilter}
    (h : QubicClient._create_by_filter_request rt ai oi po = Except.ok req) :
    req.flags = QubicClient._get_flags oi po ∧
    req.asset_name = ai.name.take 8 ++ List.replicate (8 - (ai.name.take 8).length) 0 ∧
    ai.name ≠ [] := by
  unfold QubicClient._create_by_filter_request at h
  split at h
  · exact absurd h (by simp)
  · split at h
    · exact absurd h (by simp)
    · rename_i hname
      split at h
      · exact absurd h (by simp)
      · split at h
        · exact absurd h (by simp)
        · injection h with h'
          rw [← h']
          exact ⟨rfl, rfl, hname⟩

theorem create_by_filter_empty_name {rt : Nat} {ai : AssetInformation}
    {oi po : AssetHolderInformation} (hname : ai.name = [])
    (hiss : ai.identity = [] ∨ ∃ pk, Identity.to_pub_key ai.identity false = some pk) :
    QubicClient._create_by_filter_request rt ai oi po = Except.error QErr.assetNameRequired := by
  unfold QubicClient._create_by_filter_request
  by_cases hid : ai.identity = []
  · rw [if_pos hid]
    simp only
    rw [if_pos hname]
  · rw [if_neg hid]
    rcases hiss with hiss | ⟨pk, hpk⟩
    · exact absurd hiss hid
    · rw [hpk]
      simp only
      rw [if_pos hname]

theorem create_issuances_fields {iss nm : List Nat} {req : RequestAssetsByFilter}
    (h : QubicClient._create_asset_issuances_by_filter_request iss nm = Except.ok req) :
    req.flags = (if nm = [] then (if iss = [] then 0 ||| FLAG_ANY_ISSUER else 0) ||| FLAG_ANY_ASSET_NAME
                 else (if iss = [] then 0 ||| FLAG_ANY_ISSUER else 0)) ∧
    req.asset_name = nm.take 8 ++ List.replicate (8 - (nm.take 8).length) 0 := by
  unfold QubicClient._create_asset_issuances_by_filter_request at h
  split at h
  · rename_i hiss
    injection h with h'
    rw [← h']
    refine ⟨?_, rfl⟩
    simp [hiss]
  · rename_i hiss
    split at h
    · exact absurd h (by simp)
    · injection h with h'
      rw [← h']
      refine ⟨?_, rfl⟩
      simp [hiss]

theorem testBit_flag_issuer (i : Nat) : FLAG_ANY_ISSUER.testBit i = decide (i = 1) := by
  rw [show FLAG_ANY_ISSUER = 2 ^ 1 from rfl, Nat.testBit_two_pow]
  simp [eq_comm]

theorem testBit_flag_name (i : Nat) : FLAG_ANY_ASSET_NAME.testBit i = decide (i = 2) := by
  rw [show FLAG_ANY_ASSET_NAME = 2 ^ 2 from rfl, Nat.testBit_two_pow]
  simp [eq_comm]

theorem testBit_flag_owner (i : Nat) : FLAG_ANY_OWNER.testBit i = decide (i = 3) := by
  rw [show FLAG_ANY_OWNER = 2 ^ 3 from rfl, Nat.testBit_two_pow]
  simp [eq_comm]

theorem testBit_flag_owner_contract (i : Nat) : FLAG_ANY_OWNER_CONTRACT.testBit i = decide (i = 4) := by
  rw [show FLAG_ANY_OWNER_CONTRACT = 2 ^ 4 from rfl, Nat.testBit_two_pow]
  simp [eq_comm]

theorem testBit_flag_possessor (i : Nat) : FLAG_ANY_POSSESSOR.testBit i = decide (i = 5) := by
  rw [show FLAG_ANY_POSSESSOR = 2 ^ 5 from rfl, Nat.testBit_two_pow]
  simp [eq_comm]

theorem testBit_flag_possessor_contract (i : Nat) :
    FLAG_ANY_POSSESSOR_CONTRACT.testBit i = decide (i = 6) := by
  rw [show FLAG_ANY_POSSESSOR_CONTRACT = 2 ^ 6 from rfl, Nat.testBit_two_pow]
  simp [eq_comm]

/-- Counterexample for C5: a possession-by-filter build with the issuer
absent (and a present name).  The claim requires the "any issuer" bit 0b10
to be set exactly when the issuer identity is absent, but the build computes
flags 0b1111000 = 120, whose bit 1 is clear. -/
theorem filter_flags_claim_counterexample :
    QubicClient._create_by_filter_request ASSET_POSSESSION_RECORDS ⟨[], [88]⟩ ⟨[], 0⟩ ⟨[], 0⟩ =
      Except.ok ⟨ASSET_POSSESSION_RECORDS, 120, 0, 0, zeros32,
        [88, 0, 0, 0, 0, 0, 0, 0], zeros32, zeros32⟩
    ∧ Nat.testBit 120 1 = false := by
  refine ⟨by decide, by decide⟩

/-- C5 (amended): the ownership/possession filter builder sets exactly the
owner, possessor, owner-contract and possessor-contract wildcard bits, by
the documented conditions, and never the issuer or asset-name bits; the
issuance filter builder sets exactly the issuer and asset-name wildcard
bits, by the documented conditions, and never the others. -/
theorem filter_flags_characterization :
    (∀ (rt : Nat) (ai : AssetInformation) (oi po : AssetHolderInformation)
      (req : RequestAssetsByFilter),
      QubicClient._create_by_filter_request rt ai oi po = Except.ok req →
      ∀ i, req.flags.testBit i =
        (decide (i = 3 ∧ oi.identity = []) || decide (i = 5 ∧ po.identity = []) ||
         decide (i = 4 ∧ oi.contract = 0) || decide (i = 6 ∧ po.contract = 0)))
    ∧ (∀ (iss nm : List Nat) (req : RequestAssetsByFilter),
      QubicClient._create_asset_issuances_by_filter_request iss nm = Except.ok req →
      ∀ i, req.flags.testBit i = (decide (i = 1 ∧ iss = []) || decide (i = 2 ∧ nm = []))) := by
  constructor
  · intro rt ai oi po req h i
    rw [(create_by_filter_fields h).1]
    unfold QubicClient._get_flags
    by_cases h3 : oi.identity = [] <;> by_cases h5 : po.identity = [] <;>
      by_cases h4 : oi.contract = 0 <;> by_cases h6 : po.contract = 0 <;>
      simp [h3, h4, h5, h6, Nat.testBit_or, Nat.zero_testBit, testBit_flag_owner,
        testBit_flag_possessor, testBit_flag_owner_contract, testBit_flag_possessor_contract]
  · intro iss nm req h i
    rw [(create_issuances_fields h).1]
    by_cases h1 : iss = [] <;> by_cases h2 : nm = [] <;>
      simp [h1, h2, Nat.testBit_or, Nat.zero_testBit, testBit_flag_issuer, testBit_flag_name]

/-- Witness for C5 (amended) at concrete builds: a possession build with all
filters absent (flags 120) and an issuance build with issuer absent and a
present name (flags 2). -/
theorem filter_flags_characterization_witness :
    (∀ i, Nat.testBit
        (RequestAssetsByFilter.flags ⟨ASSET_POSSESSION_RECORDS, 120, 0, 0, zeros32,
          [88, 0, 0, 0, 0, 0, 0, 0], zeros32, zeros32⟩) i =
      (decide (i = 3 ∧ ([] : List Nat) = []) || decide (i = 5 ∧ ([] : List Nat) = []) ||
       decide (i = 4 ∧ (0 : Nat) = 0) || decide (i = 6 ∧ (0 : Nat) = 0)))
    ∧ (∀ i, Nat.testBit
        (RequestAssetsByFilter.flags ⟨ASSET_ISSUANCE_RECORDS, 2, 0, 0, zeros32,
          [65, 0, 0, 0, 0, 0, 0, 0], zeros32, zeros32⟩) i =
      (decide (i = 1 ∧ ([] : List Nat) = []) || decide (i = 2 ∧ ([65] : List Nat) = []))) :=
  ⟨filter_flags_characterization.1 ASSET_POSSESSION_RECORDS ⟨[], [88]⟩ ⟨[], 0⟩ ⟨[], 0⟩ _ (by decide),
   filter_flags_characterization.2 [] [65] _ (by decide)⟩

/-- Counterexample for C7: the issuance-by-filter build with no asset name
does not fail; it sets the "any asset name" flag and succeeds with an
all-zero name field. -/
theorem issuance_empty_name_no_error :
    QubicClient._create_asset_issuances_by_filter_request [] [] =
      Except.ok ⟨ASSET_ISSUANCE_RECORDS, 6, 0, 0, zeros32, List.replicate 8 0,
        zeros32, zeros32⟩ := by
  decide

/-- C7 (amended): in every filter build the 8-byte asset-name field is the
first up-to-8 bytes of the name's text encoding zero-padded on the right;
the ownership/possession builds never succeed with an absent name and, when
the issuer identity is absent or resolves to a key, fail with the
asset-name-required validation error; the issuance build instead accepts an
absent name (setting the wildcard flag). -/
theorem asset_name_encoding :
    (∀ (rt : Nat) (ai : AssetInformation) (oi po : AssetHolderInformation)
      (req : RequestAssetsByFilter), ai.name = [] →
      QubicClient._create_by_filter_request rt ai oi po ≠ Except.ok req)
    ∧ (∀ (rt : Nat) (ai : AssetInformation) (oi po : AssetHolderInformation),
      (ai.identity = [] ∨ ∃ pk, Identity.to_pub_key ai.identity false = some pk) →
      ai.name = [] →
      QubicClient._create_by_filter_request rt ai oi po = Except.error QErr.assetNameRequired)
    ∧ (∀ (rt : Nat) (ai : AssetInformation) (oi po : AssetHolderInformation)
      (req : RequestAssetsByFilter),
      QubicClient._create_by_filter_request rt ai oi po = Except.ok req →
      req.asset_name.length = 8 ∧
      ∀ i, i < 8 → req.asset_name.getD i 0 = if i < ai.name.length then ai.name.getD i 0 else 0)
    ∧ (∀ (iss nm : List Nat) (req : RequestAssetsByFilter),
      QubicClient._create_asset_issuances_by_filter_request iss nm = Except.ok req →
      req.asset_name.length = 8 ∧
      ∀ i, i < 8 → req.asset_name.getD i 0 = if i < nm.length then nm.getD i 0 else 0)
    ∧ (∀ nm : List Nat,
      ∃ req, QubicClient._create_asset_issuances_by_filter_request [] nm = Except.ok req) := by
  refine ⟨?_, ?_, ?_, ?_, ?_⟩
  · intro rt ai oi po req hname h
    exact (create_by_filter_fields h).2.2 hname
  · intro rt ai oi po hiss hname
    exact create_by_filter_empty_name hname hiss
  · intro rt ai oi po req h
    rw [(create_by_filter_fields h).2.1]
    exact ⟨pad_name_length _, fun i hi => pad_name_getD _ i hi⟩
  · intro iss nm req h
    rw [(create_issuances_fields h).2]
    exact ⟨pad_name_length _, fun i hi => pad_name_getD _ i hi⟩
  · intro nm
    exact ⟨_, rfl⟩

/-- Witness for C7 (amended) at concrete builds: an ownership build with an
absent issuer and an absent name fails with the validation error, as does a
possession build whose 60-letter-A issuer resolves to the all-zero key; a
possession build with the two-byte name "XY" zero-pads it to 8 bytes, and
the issuance build accepts an absent name. -/
theorem asset_name_encoding_witness :
    QubicClient._create_by_filter_request ASSET_OWNERSHIP_RECORDS ⟨[], []⟩ ⟨[], 0⟩ ⟨[], 0⟩ =
      Except.error QErr.assetNameRequired
    ∧ QubicClient._create_by_filter_request ASSET_POSSESSION_RECORDS
        ⟨List.replicate 60 65, []⟩ ⟨[], 0⟩ ⟨[], 0⟩ = Except.error QErr.assetNameRequired
    ∧ ((RequestAssetsByFilter.asset_name ⟨ASSET_POSSESSION_RECORDS, 120, 0, 0, zeros32,
        [88, 89, 0, 0, 0, 0, 0, 0], zeros32, zeros32⟩).length = 8 ∧
      ∀ i, i < 8 → (RequestAssetsByFilter.asset_name ⟨ASSET_POSSESSION_RECORDS, 120, 0, 0, zeros32,
        [88, 89, 0, 0, 0, 0, 0, 0], zeros32, zeros32⟩).getD i 0 =
          if i < ([88, 89] : List Nat).length then ([88, 89] : List Nat).getD i 0 else 0)
    ∧ ∃ req, QubicClient._create_asset_issuances_by_filter_request [] [] = Except.ok req :=
  ⟨asset_name_encoding.2.1 ASSET_OWNERSHIP_RECORDS ⟨[], []⟩ ⟨[], 0⟩ ⟨[], 0⟩ (Or.inl rfl) rfl,
   asset_name_encoding.2.1 ASSET_POSSESSION_RECORDS ⟨List.replicate 60 65, []⟩ ⟨[], 0⟩ ⟨[], 0⟩
     (Or.inr ⟨List.replicate 32 0, by decide⟩) rfl,
   asset_name_encoding.2.2.1 ASSET_POSSESSION_RECORDS ⟨[], [88, 89]⟩ ⟨[], 0⟩ ⟨[], 0⟩ _ (by decide),
   asset_name_encoding.2.2.2.2 []⟩

/-- Counterexample for C6: requesting tick data for tick 10 when the node's
latest tick is 0 does fail with the future-tick validation error, but only
after the tick-info request has been sent on the transport — the list of
packets sent before the failure is not empty, contradicting the claim that
the validation failure precedes all network I/O of the call. -/
theorem get_tick_data_sends_before_validation :
    (QubicClient.get_tick_data 1 1 10 ([16, 0, 0, 28, 0, 0, 0, 0] ++ List.replicate 16 0)).2 =
      Except.error (QErr.futureTick 10 0)
    ∧ (QubicClient.get_tick_data 1 1 10 ([16, 0, 0, 28, 0, 0, 0, 0] ++ List.replicate 16 0)).1 ≠ [] := by
  refine ⟨by decide, by decide⟩

/-- C6 (amended): whenever the decoded tick info reports a latest tick below
the requested tick number, get_tick_data fails with the future-tick
validation error before the tick-data request is sent: the only packet on
the transport is the preceding tick-info request. -/
theorem get_tick_data_future_tick_validation (dv1 dv2 n : Nat) (s : ByteStream)
    (ti : TickInfo) (s1 : ByteStream) (h : TickInfo.decode s = some (ti, s1))
    (hn : ti.tick < n) :
    QubicClient.get_tick_data dv1 dv2 n s =
      ([QubicClient._serialize_request CURRENT_TICK_INFO_REQUEST [] dv1],
        Except.error (QErr.futureTick n ti.tick)) := by
  unfold QubicClient.get_tick_data QubicClient.get_tick_info
  rw [h]
  simp [hn]

/-- Witness for C6 (amended): latest tick 3, requested tick 5. -/
theorem get_tick_data_future_tick_validation_witness :
    QubicClient.get_tick_data 2 2 5
        ([16, 0, 0, 28, 0, 0, 0, 0] ++ [0, 0, 0, 0, 3, 0, 0, 0, 0, 0, 0, 0, 0, 0, 0, 0]) =
      ([QubicClient._serialize_request CURRENT_TICK_INFO_REQUEST [] 2],
        Except.error (QErr.futureTick 5 3)) :=
  get_tick_data_future_tick_validation 2 2 5 _ ⟨0, 0, 3, 0, 0, 0⟩ [] (by decide) (by decide)

/-- C9: the unimplemented peer-discovery operation does not fail: its body
is a TODO and `pass`, so every invocation silently returns Python None after
sending nothing — the spec's demand that it fail explicitly is not met by
the code. -/
theorem get_peers_silent :
    QubicClient.get_peers = ([], Except.ok none) := rfl
